import Mathlib

/-!
Verification development for the netstat2 socket-enumeration library.

The crate's public surface is `get_sockets_info(af_flags, proto_flags)`,
returning a list of `SocketInfo` records describing the host's live TCP/UDP
sockets together with the owning process ids.  The repository provides the
filter flag type `AddressFamilyFlags` directly; the per-platform enumeration
engine, the `ProtocolFlags` filter and the record types are exercised through
the crate's integration tests, so they are modelled here from the
specification (§3, §4 of spec.md): the kernel is an abstract `SystemState`
mapping each (protocol, family) pair to either a source failure or a list of
raw table rows (possibly malformed), plus a process table used by the
ownership correlator.
-/

namespace Netstat

/-- Modelled from the spec: the unified IP address representation used by the
socket record model (IPv4 as four octets, IPv6 as eight 16-bit groups); the
crate uses `std::net::IpAddr`, which is not part of the sources. -/
inductive IpAddr where
  | v4 (a b c d : Nat) : IpAddr
  | v6 (a b c d e f g h : Nat) : IpAddr
deriving DecidableEq, Repr

/-- The IPv4 loopback address `127.0.0.1`. -/
def ipv4Localhost : IpAddr := .v4 127 0 0 1

/-- The IPv4 unspecified sentinel `0.0.0.0`. -/
def ipv4Unspecified : IpAddr := .v4 0 0 0 0

/-- The IPv6 loopback address `::1`. -/
def ipv6Localhost : IpAddr := .v6 0 0 0 0 0 0 0 1

/-- The IPv6 unspecified sentinel `::`. -/
def ipv6Unspecified : IpAddr := .v6 0 0 0 0 0 0 0 0

/-- Modelled from the spec: the closed TCP state enumeration (§3), mirroring
the transport state machine, with an `unknown` variant for unmapped
platform-specific codes; the crate's `TcpState` type is not in the sources. -/
inductive TcpState where
  | closed
  | listen
  | synSent
  | synReceived
  | established
  | finWait1
  | finWait2
  | closeWait
  | closing
  | lastAck
  | timeWait
  | deleteTcb
  | unknown (code : Nat)
deriving DecidableEq, Repr

/-- Modelled from the spec: `TcpSocketRecord` (§3) — local and remote
endpoint plus observed state; the crate's `TcpSocketInfo` is not in the
sources. -/
structure TcpSocketInfo where
  local_addr : IpAddr
  local_port : Nat
  remote_addr : IpAddr
  remote_port : Nat
  state : TcpState
deriving DecidableEq, Repr

/-- Modelled from the spec: `UdpSocketRecord` (§3) — local endpoint only; no
remote endpoint or state is modelled for UDP. -/
structure UdpSocketInfo where
  local_addr : IpAddr
  local_port : Nat
deriving DecidableEq, Repr

/-- Modelled from the spec: the protocol-specific part of a socket record —
a variant over the TCP and UDP record shapes. -/
inductive ProtocolSocketInfo where
  | tcp (i : TcpSocketInfo) : ProtocolSocketInfo
  | udp (i : UdpSocketInfo) : ProtocolSocketInfo
deriving DecidableEq, Repr

/-- Modelled from the spec: `SocketInfo` (§3) — the protocol record together
with the ordered list of owning process ids. -/
structure SocketInfo where
  protocol_socket_info : ProtocolSocketInfo
  associated_pids : List Nat
deriving DecidableEq, Repr

/-- Modelled from the spec: the filter over address families, a set over
{IPv4, IPv6} (§3); represented by two membership booleans.  The crate's
`AddressFamilyFlags` is a `bitflags` u8 set with IPV4 = bit 0 and IPV6 =
bit 1 (src/types/address_family.rs). -/
structure AddressFamilyFlags where
  ipv4 : Bool
  ipv6 : Bool
deriving DecidableEq, Repr

/-- The IPV4 flag constant (bit 0 of the bitflags declaration). -/
def AddressFamilyFlags.IPV4 : AddressFamilyFlags := ⟨true, false⟩

/-- The IPV6 flag constant (bit 1 of the bitflags declaration). -/
def AddressFamilyFlags.IPV6 : AddressFamilyFlags := ⟨false, true⟩

/-- The empty address-family filter. -/
def AddressFamilyFlags.empty : AddressFamilyFlags := ⟨false, false⟩

/-- The full address-family filter (`all()`). -/
def AddressFamilyFlags.all : AddressFamilyFlags := ⟨true, true⟩

/-- Union of two address-family filters (bitwise or of the flag bits). -/
def AddressFamilyFlags.union (x y : AddressFamilyFlags) : AddressFamilyFlags :=
  ⟨x.ipv4 || y.ipv4, x.ipv6 || y.ipv6⟩

/-- The raw u8 bit pattern of a filter value, per the bitflags declaration:
IPV4 = 0b01, IPV6 = 0b10. -/
def AddressFamilyFlags.bits (f : AddressFamilyFlags) : Nat :=
  (if f.ipv4 then 1 else 0) + (if f.ipv6 then 2 else 0)

/-- `from_bits` of the bitflags type: succeeds exactly when no bit outside
IPV4 ||| IPV6 (= 0b11) is set in the argument. -/
def AddressFamilyFlags.from_bits (n : Nat) : Option AddressFamilyFlags :=
  if n &&& 3 = n then some ⟨n.testBit 0, n.testBit 1⟩ else none

/-- Modelled from the spec: the filter over transport protocols, a set over
{TCP, UDP} (§3); the crate's `ProtocolFlags` bitflags type is not in the
sources. -/
structure ProtocolFlags where
  tcp : Bool
  udp : Bool
deriving DecidableEq, Repr

/-- The TCP protocol flag constant. -/
def ProtocolFlags.TCP : ProtocolFlags := ⟨true, false⟩

/-- The UDP protocol flag constant. -/
def ProtocolFlags.UDP : ProtocolFlags := ⟨false, true⟩

/-- The empty protocol filter. -/
def ProtocolFlags.empty : ProtocolFlags := ⟨false, false⟩

/-- The full protocol filter (`all()`). -/
def ProtocolFlags.all : ProtocolFlags := ⟨true, true⟩

/-- Union of two protocol filters. -/
def ProtocolFlags.union (x y : ProtocolFlags) : ProtocolFlags :=
  ⟨x.tcp || y.tcp, x.udp || y.udp⟩

/-- A single transport protocol, one axis of a table-scan work item. -/
inductive Protocol where
  | tcp
  | udp
deriving DecidableEq, Repr

/-- A single address family, the other axis of a table-scan work item. -/
inductive Family where
  | ipv4
  | ipv6
deriving DecidableEq, Repr

/-- Modelled from the spec: error kinds of the engine (§7). -/
inductive SocketError where
  | unsupportedCombination
  | sourceUnavailable
  | decodeFailure
deriving DecidableEq, Repr

/-- Modelled from the spec: a raw socket table record together with its
opaque ownership key (§4.1). -/
structure RawRecord where
  record : ProtocolSocketInfo
  key : Nat
deriving DecidableEq, Repr

/-- Modelled from the spec: one row of a kernel socket table — either a
well-formed record or a malformed row that the reader must skip (§4.1). -/
inductive TableRow where
  | malformed
  | ok (r : RawRecord)
deriving DecidableEq, Repr

/-- Modelled from the spec: one entry of the process table walked by the
ownership correlator (§4.2): a process id, whether its descriptor table can
be read (false models both "exited mid-scan" and "permission denied"), and
the ownership keys of its open socket descriptors. -/
structure ProcEntry where
  pid : Nat
  readable : Bool
  socket_keys : List Nat
deriving DecidableEq, Repr

/-- Modelled from the spec: the abstract kernel state one query observes — a
socket table per (protocol, family) pair (or a source failure for that pair)
and the process table (§4.1, §4.2). -/
structure SystemState where
  table : Protocol → Family → Except SocketError (List TableRow)
  processes : List ProcEntry

/-- Protocols selected by a protocol filter, scan order TCP before UDP. -/
def selected_protocols (pf : ProtocolFlags) : List Protocol :=
  (if pf.tcp then [Protocol.tcp] else []) ++ (if pf.udp then [Protocol.udp] else [])

/-- Families selected by an address-family filter, scan order IPv4 before
IPv6. -/
def selected_families (af : AddressFamilyFlags) : List Family :=
  (if af.ipv4 then [Family.ipv4] else []) ++ (if af.ipv6 then [Family.ipv6] else [])

/-- Cartesian set of work items for a list of protocols and families. -/
def pairs_for (ps : List Protocol) (fs : List Family) : List (Protocol × Family) :=
  match ps with
  | [] => []
  | p :: rest => fs.map (fun f => (p, f)) ++ pairs_for rest fs

/-- Modelled from the spec: the (protocol, family) work items selected by a
filter pair (§4.3). -/
def selected_pairs (af : AddressFamilyFlags) (pf : ProtocolFlags) : List (Protocol × Family) :=
  pairs_for (selected_protocols pf) (selected_families af)

/-- Whether a record variant matches the protocol of the table it came from
(§4.1: the record variant is implied by the protocol). -/
def row_matches (p : Protocol) (psi : ProtocolSocketInfo) : Bool :=
  match p, psi with
  | .tcp, .tcp _ => true
  | .udp, .udp _ => true
  | _, _ => false

/-- Modelled from the spec: parse the rows of one table — malformed rows are
skipped with no fatal failure, well-formed rows of the table's protocol are
kept (§4.1). -/
def parse_rows (p : Protocol) (rows : List TableRow) : List RawRecord :=
  rows.filterMap fun row =>
    match row with
    | .malformed => none
    | .ok r => if row_matches p r.record then some r else none

/-- Modelled from the spec: read one (protocol, family) table (§4.1): a
source failure is fatal for the pair, otherwise the parsed records are
returned. -/
def read_table (s : SystemState) (p : Protocol) (f : Family) :
    Except SocketError (List RawRecord) :=
  match s.table p f with
  | .error e => .error e
  | .ok rows => .ok (parse_rows p rows)

/-- Modelled from the spec: read all requested tables in order, propagating
the first source failure and concatenating the records otherwise (§4.3). -/
def read_all (s : SystemState) : List (Protocol × Family) → Except SocketError (List RawRecord)
  | [] => .ok []
  | q :: rest =>
    match read_table s q.1 q.2 with
    | .error e => .error e
    | .ok recs =>
      match read_all s rest with
      | .error e => .error e
      | .ok more => .ok (recs ++ more)

/-- Modelled from the spec: one step of the ownership correlator (§4.2) —
walk the process table in order, appending the process id to the owner list
of `key` on its first eligible occurrence; unreadable processes contribute
nothing. -/
def collect (key : Nat) (procs : List ProcEntry) (acc : List Nat) : List Nat :=
  match procs with
  | [] => acc
  | pr :: rest =>
    if pr.readable = true ∧ key ∈ pr.socket_keys ∧ pr.pid ∉ acc then
      collect key rest (acc ++ [pr.pid])
    else
      collect key rest acc

/-- Modelled from the spec: the owner list the correlator produces for one
ownership key (§4.2): process ids in first-occurrence order, no duplicates. -/
def correlate_owners (procs : List ProcEntry) (key : Nat) : List Nat :=
  collect key procs []

/-- Join one raw record with its owners (§4.3; an absent key yields an empty
owner list automatically). -/
def toSocketInfo (procs : List ProcEntry) (r : RawRecord) : SocketInfo :=
  { protocol_socket_info := r.record
    associated_pids := correlate_owners procs r.key }

/-- Modelled from the spec: the public query `get_sockets_info` (§4.3, §6):
determine the selected (protocol, family) work items, read each table
(propagating any source failure), correlate ownership once over the process
table, and join records with owner lists. -/
def get_sockets_info (s : SystemState) (af : AddressFamilyFlags) (pf : ProtocolFlags) :
    Except SocketError (List SocketInfo) :=
  match read_all s (selected_pairs af pf) with
  | .error e => .error e
  | .ok recs => .ok (recs.map (toSocketInfo s.processes))

/-- The loopback address of a family. -/
def loopback : Family → IpAddr
  | .ipv4 => ipv4Localhost
  | .ipv6 => ipv6Localhost

/-- The unspecified sentinel address of a family. -/
def unspecified : Family → IpAddr
  | .ipv4 => ipv4Unspecified
  | .ipv6 => ipv6Unspecified

/-- The TCP record of a loopback listener of the given family and port:
state Listen, remote endpoint the family's unspecified sentinel with port
0. -/
def listenerRecord (fam : Family) (port : Nat) : TcpSocketInfo :=
  { local_addr := loopback fam
    local_port := port
    remote_addr := unspecified fam
    remote_port := 0
    state := TcpState.listen }

/-- Whether a record is a TCP socket in state Listen at the given local
endpoint. -/
def isListenSock (la : IpAddr) (lp : Nat) : ProtocolSocketInfo → Bool
  | .tcp t => decide (t.state = TcpState.listen ∧ t.local_addr = la ∧ t.local_port = lp)
  | .udp _ => false

/-- Whether a record is a TCP socket in state Established whose remote
endpoint is the given address and port. -/
def isEstTo (ra : IpAddr) (rp : Nat) : ProtocolSocketInfo → Bool
  | .tcp t => decide (t.state = TcpState.established ∧ t.remote_addr = ra ∧ t.remote_port = rp)
  | .udp _ => false

/-- The local port of a record, for either protocol variant. -/
def localPortOf : ProtocolSocketInfo → Nat
  | .tcp t => t.local_port
  | .udp u => u.local_port

/-- A concrete TCP/IPv4 table used to evaluate the theorems: a loopback
listener on port 8080 (key 11), one malformed row, and an established
loopback connection to that listener (key 21). -/
def sampleRows4 : List TableRow :=
  [TableRow.ok ⟨ProtocolSocketInfo.tcp (listenerRecord Family.ipv4 8080), 11⟩,
   TableRow.malformed,
   TableRow.ok ⟨ProtocolSocketInfo.tcp
     ⟨ipv4Localhost, 50000, ipv4Localhost, 8080, TcpState.established⟩, 21⟩]

/-- A concrete TCP/IPv6 table: a loopback listener on port 9090 (key 31). -/
def sampleRows6 : List TableRow :=
  [TableRow.ok ⟨ProtocolSocketInfo.tcp (listenerRecord Family.ipv6 9090), 31⟩]

/-- A concrete UDP/IPv4 table: a bound socket on loopback port 5353
(key 41). -/
def sampleUdpRows : List TableRow :=
  [TableRow.ok ⟨ProtocolSocketInfo.udp ⟨ipv4Localhost, 5353⟩, 41⟩]

/-- A concrete kernel snapshot: the tables above plus a process table with
the calling process 1234 (owning keys 11, 21 and 41), an unreadable process
77 and a readable process 88 owning key 31. -/
def sampleState : SystemState where
  table p f :=
    match p, f with
    | .tcp, .ipv4 => .ok sampleRows4
    | .tcp, .ipv6 => .ok sampleRows6
    | .udp, .ipv4 => .ok sampleUdpRows
    | .udp, .ipv6 => .ok []
  processes :=
    [⟨1234, true, [11, 21, 41]⟩, ⟨77, false, [31]⟩, ⟨88, true, [31]⟩]

/-- A kernel snapshot in which every table read fails (e.g. insufficient
privilege). -/
def failState : SystemState where
  table _ _ := .error SocketError.sourceUnavailable
  processes := []

/-- The raw records `read_all` extracts from `sampleState` for the full
filter pair (the malformed row is skipped). -/
def sampleRecs : List RawRecord :=
  [⟨ProtocolSocketInfo.tcp (listenerRecord Family.ipv4 8080), 11⟩,
   ⟨ProtocolSocketInfo.tcp
     ⟨ipv4Localhost, 50000, ipv4Localhost, 8080, TcpState.established⟩, 21⟩,
   ⟨ProtocolSocketInfo.tcp (listenerRecord Family.ipv6 9090), 31⟩,
   ⟨ProtocolSocketInfo.udp ⟨ipv4Localhost, 5353⟩, 41⟩]

/-- The query result on `sampleState` for the full filter pair. -/
def sampleResult : List SocketInfo :=
  [⟨ProtocolSocketInfo.tcp (listenerRecord Family.ipv4 8080), [1234]⟩,
   ⟨ProtocolSocketInfo.tcp
     ⟨ipv4Localhost, 50000, ipv4Localhost, 8080, TcpState.established⟩, [1234]⟩,
   ⟨ProtocolSocketInfo.tcp (listenerRecord Family.ipv6 9090), [88]⟩,
   ⟨ProtocolSocketInfo.udp ⟨ipv4Localhost, 5353⟩, [1234]⟩]

/-- The query result on `sampleState` for the TCP-only protocol filter. -/
def sampleTcpResult : List SocketInfo :=
  [⟨ProtocolSocketInfo.tcp (listenerRecord Family.ipv4 8080), [1234]⟩,
   ⟨ProtocolSocketInfo.tcp
     ⟨ipv4Localhost, 50000, ipv4Localhost, 8080, TcpState.established⟩, [1234]⟩,
   ⟨ProtocolSocketInfo.tcp (listenerRecord Family.ipv6 9090), [88]⟩]

/-- The query result on `sampleState` for the UDP-only protocol filter. -/
def sampleUdpResult : List SocketInfo :=
  [⟨ProtocolSocketInfo.udp ⟨ipv4Localhost, 5353⟩, [1234]⟩]

/-! ### Helper lemmas -/

/-- Selecting no family yields no work items, whatever the protocols. -/
theorem pairs_for_nil_right (ps : List Protocol) : pairs_for ps [] = [] := by
  induction ps with
  | nil => rfl
  | cons p rest ih => simp [pairs_for, ih]

/-- If every requested table is readable, `read_all` succeeds. -/
theorem read_all_ok_of_tables_ok (s : SystemState) :
    ∀ pairs : List (Protocol × Family),
      (∀ q ∈ pairs, (s.table q.1 q.2).isOk = true) →
      ∃ recs, read_all s pairs = Except.ok recs := by
  intro pairs
  induction pairs with
  | nil => intro _; exact ⟨[], rfl⟩
  | cons q rest ih =>
    intro h
    have hq := h q (List.mem_cons_self q rest)
    obtain ⟨recs, hrecs⟩ := ih (fun q' hq' => h q' (List.mem_cons_of_mem _ hq'))
    cases htab : s.table q.1 q.2 with
    | error e => rw [htab] at hq; simp [Except.isOk, Except.toBool] at hq
    | ok rows =>
      exact ⟨parse_rows q.1 rows ++ recs, by simp [read_all, read_table, htab, hrecs]⟩

/-- If some requested table fails with `e` and every requested table either
succeeds or fails with `e`, `read_all` returns the error `e`. -/
theorem read_all_error_of_table_error (s : SystemState) (e : SocketError) :
    ∀ pairs : List (Protocol × Family),
      (∃ q ∈ pairs, s.table q.1 q.2 = Except.error e) →
      (∀ q ∈ pairs, (s.table q.1 q.2).isOk = true ∨ s.table q.1 q.2 = Except.error e) →
      read_all s pairs = Except.error e := by
  intro pairs
  induction pairs with
  | nil => rintro ⟨q, hq, _⟩ _; exact absurd hq (List.not_mem_nil q)
  | cons p rest ih =>
    rintro ⟨q, hqmem, hqe⟩ hall
    cases htab : s.table p.1 p.2 with
    | error e' =>
      have : e' = e := by
        rcases hall p (List.mem_cons_self p rest) with hok | herr
        · rw [htab] at hok; simp [Except.isOk, Except.toBool] at hok
        · rw [htab] at herr; exact (Except.error.inj herr)
      subst this
      simp [read_all, read_table, htab]
    | ok rows =>
      have hqrest : q ∈ rest := by
        rcases List.mem_cons.mp hqmem with rfl | h
        · rw [htab] at hqe; exact absurd hqe (by simp)
        · exact h
      have hrest := ih ⟨q, hqrest, hqe⟩ (fun q' hq' => hall q' (List.mem_cons_of_mem _ hq'))
      simp [read_all, read_table, htab, hrest]

/-- `read_all` distributes over appended work-item lists when both halves
succeed. -/
theorem read_all_append (s : SystemState) :
    ∀ (xs ys : List (Protocol × Family)) (a b : List RawRecord),
      read_all s xs = Except.ok a → read_all s ys = Except.ok b →
      read_all s (xs ++ ys) = Except.ok (a ++ b) := by
  intro xs
  induction xs with
  | nil =>
    intro ys a b ha hb
    have : a = [] := by simpa [read_all] using ha.symm
    subst this; simpa using hb
  | cons q rest ih =>
    intro ys a b ha hb
    cases htab : read_table s q.1 q.2 with
    | error e => rw [read_all, htab] at ha; exact absurd ha (by simp)
    | ok recs =>
      rw [read_all, htab] at ha
      cases hra : read_all s rest with
      | error e => rw [hra] at ha; exact absurd ha (by simp)
      | ok more =>
        rw [hra] at ha
        have ha' : recs ++ more = a := by simpa using ha
        have := ih ys more b hra hb
        rw [List.cons_append, read_all, htab, this, ← ha']
        simp

/-- A well-formed row of a successfully read, requested table survives into
the concatenated record list. -/
theorem mem_read_all (s : SystemState) (r : RawRecord) :
    ∀ (pairs : List (Protocol × Family)) (q : Protocol × Family) (rows : List TableRow)
      (recs : List RawRecord),
      q ∈ pairs → s.table q.1 q.2 = Except.ok rows → TableRow.ok r ∈ rows →
      row_matches q.1 r.record = true → read_all s pairs = Except.ok recs → r ∈ recs := by
  intro pairs
  induction pairs with
  | nil => intro q _ _ hq; exact absurd hq (List.not_mem_nil q)
  | cons p rest ih =>
    intro q rows recs hmem htab hrow hmatch hread
    cases hrt : read_table s p.1 p.2 with
    | error e => rw [read_all, hrt] at hread; exact absurd hread (by simp)
    | ok recs1 =>
      rw [read_all, hrt] at hread
      cases hra : read_all s rest with
      | error e => rw [hra] at hread; exact absurd hread (by simp)
      | ok recs2 =>
        rw [hra] at hread
        have hrecs : recs1 ++ recs2 = recs := by simpa using hread
        rw [← hrecs]
        rcases List.mem_cons.mp hmem with rfl | hqrest
        · refine List.mem_append_left _ ?_
          have : recs1 = parse_rows q.1 rows := by
            rw [read_table, htab] at hrt
            exact (Except.ok.inj hrt).symm
          subst this
          refine List.mem_filterMap.mpr ⟨TableRow.ok r, hrow, ?_⟩
          simp [hmatch]
        · exact List.mem_append_right _ (ih q rows recs2 hqrest htab hrow hmatch hra)

/-- `collect` only appends: the result is the accumulator followed by a tail
of new pids that respects the process-table scan order. -/
theorem collect_eq_append (key : Nat) :
    ∀ (procs : List ProcEntry) (acc : List Nat),
      ∃ t, collect key procs acc = acc ++ t ∧ t.Sublist (procs.map (fun pr => pr.pid)) := by
  intro procs
  induction procs with
  | nil => intro acc; exact ⟨[], by simp [collect], List.nil_sublist _⟩
  | cons pr rest ih =>
    intro acc
    by_cases h : pr.readable = true ∧ key ∈ pr.socket_keys ∧ pr.pid ∉ acc
    · obtain ⟨t, ht, hs⟩ := ih (acc ++ [pr.pid])
      refine ⟨pr.pid :: t, ?_, ?_⟩
      · simp only [collect, if_pos h, ht]; simp
      · simpa using List.Sublist.cons₂ pr.pid hs
    · obtain ⟨t, ht, hs⟩ := ih acc
      refine ⟨t, by simp only [collect, if_neg h, ht], ?_⟩
      simpa using List.Sublist.cons pr.pid hs

/-- Membership in a `collect` run: a pid is in the result iff it was already
accumulated or some readable process owning the key carries it. -/
theorem mem_collect (key pid : Nat) :
    ∀ (procs : List ProcEntry) (acc : List Nat),
      pid ∈ collect key procs acc ↔
        pid ∈ acc ∨ ∃ pr, pr ∈ procs ∧ pr.readable = true ∧
          key ∈ pr.socket_keys ∧ pr.pid = pid := by
  intro procs
  induction procs with
  | nil => intro acc; simp [collect]
  | cons pr rest ih =>
    intro acc
    by_cases h : pr.readable = true ∧ key ∈ pr.socket_keys ∧ pr.pid ∉ acc
    · rw [show collect key (pr :: rest) acc = collect key rest (acc ++ [pr.pid]) by
        simp only [collect, if_pos h], ih (acc ++ [pr.pid])]
      constructor
      · rintro (hin | hex)
        · rcases List.mem_append.mp hin with h1 | h2
          · exact Or.inl h1
          · exact Or.inr ⟨pr, List.mem_cons_self pr rest, h.1, h.2.1,
              (List.mem_singleton.mp h2).symm⟩
        · obtain ⟨pr', hm, hr, hk, hp⟩ := hex
          exact Or.inr ⟨pr', List.mem_cons_of_mem _ hm, hr, hk, hp⟩
      · rintro (h1 | ⟨pr', hm, hr, hk, hp⟩)
        · exact Or.inl (List.mem_append_left _ h1)
        · rcases List.mem_cons.mp hm with rfl | hm'
          · exact Or.inl (List.mem_append_right _ (by simp [hp]))
          · exact Or.inr ⟨pr', hm', hr, hk, hp⟩
    · rw [show collect key (pr :: rest) acc = collect key rest acc by
        simp only [collect, if_neg h], ih acc]
      constructor
      · rintro (h1 | ⟨pr', hm, hr, hk, hp⟩)
        · exact Or.inl h1
        · exact Or.inr ⟨pr', List.mem_cons_of_mem _ hm, hr, hk, hp⟩
      · rintro (h1 | ⟨pr', hm, hr, hk, hp⟩)
        · exact Or.inl h1
        · rcases List.mem_cons.mp hm with rfl | hm'
          · push_neg at h
            exact Or.inl (hp ▸ h hr hk)
          · exact Or.inr ⟨pr', hm', hr, hk, hp⟩

/-- `collect` never introduces a duplicate pid. -/
theorem nodup_collect (key : Nat) :
    ∀ (procs : List ProcEntry) (acc : List Nat), acc.Nodup → (collect key procs acc).Nodup := by
  intro procs
  induction procs with
  | nil => intro acc hacc; simpa [collect] using hacc
  | cons pr rest ih =>
    intro acc hacc
    by_cases h : pr.readable = true ∧ key ∈ pr.socket_keys ∧ pr.pid ∉ acc
    · rw [show collect key (pr :: rest) acc = collect key rest (acc ++ [pr.pid]) by
        simp only [collect, if_pos h]]
      exact ih _ (by simp [List.nodup_append, hacc, h.2.2])
    · rw [show collect key (pr :: rest) acc = collect key rest acc by
        simp only [collect, if_neg h]]
      exact ih _ hacc

/-- The correlator's owner list for a key contains exactly the pids of the
readable processes owning the key. -/
theorem mem_correlate_owners (procs : List ProcEntry) (key pid : Nat) :
    pid ∈ correlate_owners procs key ↔
      ∃ pr, pr ∈ procs ∧ pr.readable = true ∧ key ∈ pr.socket_keys ∧ pr.pid = pid := by
  rw [correlate_owners, mem_collect]
  simp

/-- The correlator's owner list has no duplicate pid. -/
theorem nodup_correlate_owners (procs : List ProcEntry) (key : Nat) :
    (correlate_owners procs key).Nodup :=
  nodup_collect key procs [] List.nodup_nil

/-- The correlator's owner list is a sublist of the pid column of the process
table: pids appear in scan (first-discovery) order. -/
theorem correlate_owners_sublist (procs : List ProcEntry) (key : Nat) :
    (correlate_owners procs key).Sublist (procs.map (fun pr => pr.pid)) := by
  obtain ⟨t, ht, hs⟩ := collect_eq_append key procs []
  rw [correlate_owners, ht]
  simpa using hs

/-- A successful `read_all` over the selected pairs determines the query
result: each record joined with its correlated owner list. -/
theorem get_sockets_info_of_read_all (s : SystemState) (af : AddressFamilyFlags)
    (pf : ProtocolFlags) (recs : List RawRecord)
    (h : read_all s (selected_pairs af pf) = Except.ok recs) :
    get_sockets_info s af pf = Except.ok (recs.map (toSocketInfo s.processes)) := by
  rw [get_sockets_info, h]

/-- A failing `read_all` over the selected pairs makes the query fail with
the same error. -/
theorem get_sockets_info_of_read_all_error (s : SystemState) (af : AddressFamilyFlags)
    (pf : ProtocolFlags) (e : SocketError)
    (h : read_all s (selected_pairs af pf) = Except.error e) :
    get_sockets_info s af pf = Except.error e := by
  rw [get_sockets_info, h]

/-- Inversion: a successful query comes from a successful `read_all`, and
the result is the record list joined with owner lists. -/
theorem get_sockets_info_ok_inv (s : SystemState) (af : AddressFamilyFlags)
    (pf : ProtocolFlags) (l : List SocketInfo)
    (h : get_sockets_info s af pf = Except.ok l) :
    ∃ recs, read_all s (selected_pairs af pf) = Except.ok recs ∧
      l = recs.map (toSocketInfo s.processes) := by
  rw [get_sockets_info] at h
  cases hra : read_all s (selected_pairs af pf) with
  | error e => rw [hra] at h; exact absurd h (by simp)
  | ok recs => rw [hra] at h; exact ⟨recs, rfl, (Except.ok.inj h).symm⟩

/-! ### Claim theorems -/

/-- C1: a freshly created listening TCP socket bound to the loopback address
of a family (`127.0.0.1` for IPv4, `::1` for IPv6) — i.e. a row of that
family's TCP table with state Listen, local endpoint the bound address and
port, remote endpoint the family's unspecified sentinel with port 0, and an
ownership key held by the readable calling process — appears in the result
of `get_sockets_info` when that family and TCP are selected, with exactly
those endpoint fields and with the calling pid in its associated pid list. -/
theorem c1_listening_tcp_socket_is_found
    (s : SystemState) (af : AddressFamilyFlags) (pf : ProtocolFlags)
    (fam : Family) (port k pid : Nat) (rows : List TableRow) (pr : ProcEntry)
    (hsel : (Protocol.tcp, fam) ∈ selected_pairs af pf)
    (hok : ∀ q ∈ selected_pairs af pf, (s.table q.1 q.2).isOk = true)
    (htab : s.table Protocol.tcp fam = Except.ok rows)
    (hrow : TableRow.ok ⟨ProtocolSocketInfo.tcp (listenerRecord fam port), k⟩ ∈ rows)
    (hpr : pr ∈ s.processes) (hread : pr.readable = true)
    (hkey : k ∈ pr.socket_keys) (hpid : pr.pid = pid) :
    ∃ l, get_sockets_info s af pf = Except.ok l ∧
      ∃ si ∈ l,
        si.protocol_socket_info = ProtocolSocketInfo.tcp (listenerRecord fam port) ∧
        pid ∈ si.associated_pids := by
  obtain ⟨recs, hrecs⟩ := read_all_ok_of_tables_ok s _ hok
  refine ⟨recs.map (toSocketInfo s.processes),
    get_sockets_info_of_read_all s af pf recs hrecs, ?_⟩
  have hr : (⟨ProtocolSocketInfo.tcp (listenerRecord fam port), k⟩ : RawRecord) ∈ recs :=
    mem_read_all s _ _ (Protocol.tcp, fam) rows recs hsel htab hrow rfl hrecs
  refine ⟨toSocketInfo s.processes ⟨ProtocolSocketInfo.tcp (listenerRecord fam port), k⟩,
    List.mem_map_of_mem _ hr, rfl, ?_⟩
  exact (mem_correlate_owners s.processes k pid).mpr ⟨pr, hpr, hread, hkey, hpid⟩

/-- Witness for C1 at the concrete snapshot `sampleState`: the IPv4 loopback
listener on port 8080, owned by process 1234, is found. -/
theorem c1_witness :
    ∃ l, get_sockets_info sampleState AddressFamilyFlags.all ProtocolFlags.TCP = Except.ok l ∧
      ∃ si ∈ l,
        si.protocol_socket_info = ProtocolSocketInfo.tcp (listenerRecord Family.ipv4 8080) ∧
        1234 ∈ si.associated_pids :=
  c1_listening_tcp_socket_is_found sampleState AddressFamilyFlags.all ProtocolFlags.TCP
    Family.ipv4 8080 11 1234 sampleRows4 ⟨1234, true, [11, 21, 41]⟩
    (by decide) (by decide) rfl (by decide) (by decide) rfl (by decide) rfl

/-- C2: when either filter set is empty, `get_sockets_info` returns a
successful empty sequence (no table is requested, so not even a kernel whose
every table read fails can make the call error). -/
theorem c2_result_is_empty_for_empty_flags
    (s : SystemState) (af : AddressFamilyFlags) (pf : ProtocolFlags)
    (h : af = AddressFamilyFlags.empty ∨ pf = ProtocolFlags.empty) :
    get_sockets_info s af pf = Except.ok [] := by
  have hpairs : selected_pairs af pf = [] := by
    rcases h with rfl | rfl
    · rw [selected_pairs]
      have hf : selected_families AddressFamilyFlags.empty = [] := rfl
      rw [hf, pairs_for_nil_right]
    · rfl
  rw [get_sockets_info, hpairs]
  rfl

/-- Witness for C2: with both filters empty, the query on the all-failing
kernel snapshot still returns an empty Ok result. -/
theorem c2_witness :
    get_sockets_info failState AddressFamilyFlags.empty ProtocolFlags.empty = Except.ok [] :=
  c2_result_is_empty_for_empty_flags failState AddressFamilyFlags.empty ProtocolFlags.empty
    (Or.inl rfl)

/-- C3: for non-empty filter pairs, under normal privilege (every requested
table is readable) the call succeeds with a (possibly empty) sequence. -/
theorem c3_result_is_ok_for_any_flags
    (s : SystemState) (af : AddressFamilyFlags) (pf : ProtocolFlags)
    (_hne : af ≠ AddressFamilyFlags.empty ∧ pf ≠ ProtocolFlags.empty)
    (hok : ∀ q ∈ selected_pairs af pf, (s.table q.1 q.2).isOk = true) :
    (get_sockets_info s af pf).isOk = true := by
  obtain ⟨recs, hrecs⟩ := read_all_ok_of_tables_ok s _ hok
  rw [get_sockets_info_of_read_all s af pf recs hrecs]
  rfl

/-- Witness for C3 at the concrete snapshot `sampleState` with both filters
full. -/
theorem c3_witness :
    (get_sockets_info sampleState AddressFamilyFlags.all ProtocolFlags.all).isOk = true :=
  c3_result_is_ok_for_any_flags sampleState AddressFamilyFlags.all ProtocolFlags.all
    ⟨by decide, by decide⟩ (by decide)

/-- C6: error handling is all-or-nothing at call granularity.  First part:
if some requested (protocol, family) table fails with `e` (and `e` is the
error of every failing requested table, e.g. the single `SourceUnavailable`
of a privilege failure), the whole call returns `Except.error e` — no
partial data.  Second part: when every requested table is readable the call
succeeds, even though single malformed rows are skipped during parsing and
unreadable processes are skipped by the correlator (both absorbed
silently). -/
theorem c6_source_unavailable_fatal_local_failures_absorbed
    (s : SystemState) (af : AddressFamilyFlags) (pf : ProtocolFlags) :
    (∀ e q, q ∈ selected_pairs af pf → s.table q.1 q.2 = Except.error e →
      (∀ q', q' ∈ selected_pairs af pf →
        (s.table q'.1 q'.2).isOk = true ∨ s.table q'.1 q'.2 = Except.error e) →
      get_sockets_info s af pf = Except.error e) ∧
    ((∀ q', q' ∈ selected_pairs af pf → (s.table q'.1 q'.2).isOk = true) →
      (get_sockets_info s af pf).isOk = true) := by
  constructor
  · intro e q hq he huni
    exact get_sockets_info_of_read_all_error s af pf e
      (read_all_error_of_table_error s e _ ⟨q, hq, he⟩ huni)
  · intro hok
    obtain ⟨recs, hrecs⟩ := read_all_ok_of_tables_ok s _ hok
    rw [get_sockets_info_of_read_all s af pf recs hrecs]
    rfl

/-- Witness for C6: on the all-failing snapshot the call returns
`sourceUnavailable`; on `sampleState` (which contains a malformed row and an
unreadable process) the call still succeeds. -/
theorem c6_witness :
    get_sockets_info failState AddressFamilyFlags.all ProtocolFlags.all =
      Except.error SocketError.sourceUnavailable ∧
    (get_sockets_info sampleState AddressFamilyFlags.all ProtocolFlags.all).isOk = true :=
  ⟨(c6_source_unavailable_fatal_local_failures_absorbed failState
      AddressFamilyFlags.all ProtocolFlags.all).1
      SocketError.sourceUnavailable (Protocol.tcp, Family.ipv4) (by decide) rfl
      (fun q' _ => Or.inr rfl),
   (c6_source_unavailable_fatal_local_failures_absorbed sampleState
      AddressFamilyFlags.all ProtocolFlags.all).2 (by decide)⟩

/-- C7: two back-to-back calls with the same filters against the same
(unchanged) kernel snapshot produce set-equal results. -/
theorem c7_idempotent_queries
    (s : SystemState) (af : AddressFamilyFlags) (pf : ProtocolFlags)
    (l1 l2 : List SocketInfo)
    (h1 : get_sockets_info s af pf = Except.ok l1)
    (h2 : get_sockets_info s af pf = Except.ok l2) :
    ∀ x, x ∈ l1 ↔ x ∈ l2 := by
  have h : l1 = l2 := Except.ok.inj (h1.symm.trans h2)
  subst h
  intro x
  rfl

/-- Witness for C7 at the concrete snapshot, evaluated at the listener
record. -/
theorem c7_witness :
    (⟨ProtocolSocketInfo.tcp (listenerRecord Family.ipv4 8080), [1234]⟩ : SocketInfo)
        ∈ sampleResult ↔
      (⟨ProtocolSocketInfo.tcp (listenerRecord Family.ipv4 8080), [1234]⟩ : SocketInfo)
        ∈ sampleResult :=
  c7_idempotent_queries sampleState AddressFamilyFlags.all ProtocolFlags.all
    sampleResult sampleResult rfl rfl
    ⟨ProtocolSocketInfo.tcp (listenerRecord Family.ipv4 8080), [1234]⟩

/-- C4: a bound, unconnected UDP socket on `127.0.0.1:<port>` — with UDP and
IPv4 selected, the extracted records containing exactly one record equal to
that socket's, whose ownership key belongs to the readable calling process —
yields a result with exactly one matching record, the calling pid among its
owners; and a UDP record is fully determined by its local address and port
(it carries no remote endpoint or state field). -/
theorem c4_udp_socket_found_exactly_once
    (s : SystemState) (af : AddressFamilyFlags) (pf : ProtocolFlags)
    (uport k pid : Nat) (recs : List RawRecord) (pr : ProcEntry)
    (_hsel : (Protocol.udp, Family.ipv4) ∈ selected_pairs af pf)
    (hread : read_all s (selected_pairs af pf) = Except.ok recs)
    (hcount : recs.countP
      (fun r => decide (r.record = ProtocolSocketInfo.udp ⟨ipv4Localhost, uport⟩)) = 1)
    (hkey : ∀ r ∈ recs, r.record = ProtocolSocketInfo.udp ⟨ipv4Localhost, uport⟩ → r.key = k)
    (hpr : pr ∈ s.processes) (hprr : pr.readable = true)
    (hprk : k ∈ pr.socket_keys) (hpid : pr.pid = pid) :
    ∃ l, get_sockets_info s af pf = Except.ok l ∧
      l.countP (fun si =>
        decide (si.protocol_socket_info = ProtocolSocketInfo.udp ⟨ipv4Localhost, uport⟩)) = 1 ∧
      (∀ si ∈ l, si.protocol_socket_info = ProtocolSocketInfo.udp ⟨ipv4Localhost, uport⟩ →
        pid ∈ si.associated_pids) ∧
      (∀ u v : UdpSocketInfo, u.local_addr = v.local_addr → u.local_port = v.local_port →
        u = v) := by
  refine ⟨recs.map (toSocketInfo s.processes),
    get_sockets_info_of_read_all s af pf recs hread, ?_, ?_, ?_⟩
  · rw [List.countP_map]
    exact hcount
  · intro si hsi hmatch
    obtain ⟨r, hr, rfl⟩ := List.mem_map.mp hsi
    have hk : r.key = k := hkey r hr hmatch
    show pid ∈ correlate_owners s.processes r.key
    rw [hk]
    exact (mem_correlate_owners s.processes k pid).mpr ⟨pr, hpr, hprr, hprk, hpid⟩
  · intro u v h1 h2
    cases u
    cases v
    simp_all

/-- Witness for C4 at the concrete snapshot: the UDP socket on loopback port
5353 (key 41, owned by process 1234). -/
theorem c4_witness :
    ∃ l, get_sockets_info sampleState AddressFamilyFlags.all ProtocolFlags.all = Except.ok l ∧
      l.countP (fun si =>
        decide (si.protocol_socket_info = ProtocolSocketInfo.udp ⟨ipv4Localhost, 5353⟩)) = 1 ∧
      (∀ si ∈ l, si.protocol_socket_info = ProtocolSocketInfo.udp ⟨ipv4Localhost, 5353⟩ →
        1234 ∈ si.associated_pids) ∧
      (∀ u v : UdpSocketInfo, u.local_addr = v.local_addr → u.local_port = v.local_port →
        u = v) :=
  c4_udp_socket_found_exactly_once sampleState AddressFamilyFlags.all ProtocolFlags.all
    5353 41 1234 sampleRecs ⟨1234, true, [11, 21, 41]⟩
    (by decide) rfl (by decide) (by decide) (by decide) rfl (by decide) rfl

/-- C5: after establishing N concurrent TCP connections to one listener —
expressed on the extracted records: exactly one Listen-state record at the
listener's local endpoint, and the Established-state records whose remote
endpoint is the listener's endpoint carrying, in order, the connections'
ephemeral local ports `eports` (N = `eports.length`) — the query result
contains exactly one Listen-state record for the listener's endpoint and
exactly N Established-state records, pairing those local ports with the
listener's endpoint as remote. -/
theorem c5_listener_with_many_connections
    (s : SystemState) (af : AddressFamilyFlags) (pf : ProtocolFlags)
    (la : IpAddr) (lp : Nat) (eports : List Nat) (recs : List RawRecord)
    (hread : read_all s (selected_pairs af pf) = Except.ok recs)
    (hlis : recs.countP (fun r => isListenSock la lp r.record) = 1)
    (hest : (recs.filter (fun r => isEstTo la lp r.record)).map
      (fun r => localPortOf r.record) = eports) :
    ∃ l, get_sockets_info s af pf = Except.ok l ∧
      l.countP (fun si => isListenSock la lp si.protocol_socket_info) = 1 ∧
      l.countP (fun si => isEstTo la lp si.protocol_socket_info) = eports.length ∧
      (l.filter (fun si => isEstTo la lp si.protocol_socket_info)).map
        (fun si => localPortOf si.protocol_socket_info) = eports := by
  refine ⟨recs.map (toSocketInfo s.processes),
    get_sockets_info_of_read_all s af pf recs hread, ?_, ?_, ?_⟩
  · rw [List.countP_map]
    exact hlis
  · rw [List.countP_map, List.countP_eq_length_filter]
    have hlen := congrArg List.length hest
    rw [List.length_map] at hlen
    exact hlen
  · rw [List.filter_map, List.map_map]
    exact hest

/-- Witness for C5 at the concrete snapshot: the loopback listener on port
8080 with one established connection whose ephemeral local port is 50000. -/
theorem c5_witness :
    ∃ l, get_sockets_info sampleState AddressFamilyFlags.all ProtocolFlags.all = Except.ok l ∧
      l.countP (fun si => isListenSock ipv4Localhost 8080 si.protocol_socket_info) = 1 ∧
      l.countP (fun si => isEstTo ipv4Localhost 8080 si.protocol_socket_info) =
        [50000].length ∧
      (l.filter (fun si => isEstTo ipv4Localhost 8080 si.protocol_socket_info)).map
        (fun si => localPortOf si.protocol_socket_info) = [50000] :=
  c5_listener_with_many_connections sampleState AddressFamilyFlags.all ProtocolFlags.all
    ipv4Localhost 8080 [50000] sampleRecs rfl (by decide) (by decide)

/-- C8: for a fixed address-family filter and an unchanged kernel snapshot,
the union (as sets) of the TCP-only result and the UDP-only result equals
the result for the protocol filter TCP ∪ UDP. -/
theorem c8_protocol_filter_union
    (s : SystemState) (af : AddressFamilyFlags) (lt lu lb : List SocketInfo)
    (h1 : get_sockets_info s af ProtocolFlags.TCP = Except.ok lt)
    (h2 : get_sockets_info s af ProtocolFlags.UDP = Except.ok lu)
    (h3 : get_sockets_info s af (ProtocolFlags.union ProtocolFlags.TCP ProtocolFlags.UDP) =
      Except.ok lb) :
    ∀ x, x ∈ lb ↔ x ∈ lt ∨ x ∈ lu := by
  have hsplit : selected_pairs af (ProtocolFlags.union ProtocolFlags.TCP ProtocolFlags.UDP)
      = selected_pairs af ProtocolFlags.TCP ++ selected_pairs af ProtocolFlags.UDP := by
    simp [selected_pairs, selected_protocols, ProtocolFlags.union, ProtocolFlags.TCP,
      ProtocolFlags.UDP, pairs_for]
  obtain ⟨rt, hrt, hlt⟩ := get_sockets_info_ok_inv s af ProtocolFlags.TCP lt h1
  obtain ⟨ru, hru, hlu⟩ := get_sockets_info_ok_inv s af ProtocolFlags.UDP lu h2
  obtain ⟨rb, hrb, hlb⟩ := get_sockets_info_ok_inv s af
    (ProtocolFlags.union ProtocolFlags.TCP ProtocolFlags.UDP) lb h3
  rw [hsplit] at hrb
  have hcat := read_all_append s _ _ rt ru hrt hru
  have hreq : rb = rt ++ ru := Except.ok.inj (hrb.symm.trans hcat)
  subst hreq
  subst hlt
  subst hlu
  subst hlb
  intro x
  simp [List.map_append]

/-- Witness for C8 at the concrete snapshot, evaluated at the listener
record. -/
theorem c8_witness :
    (⟨ProtocolSocketInfo.tcp (listenerRecord Family.ipv4 8080), [1234]⟩ : SocketInfo)
        ∈ sampleResult ↔
      (⟨ProtocolSocketInfo.tcp (listenerRecord Family.ipv4 8080), [1234]⟩ : SocketInfo)
          ∈ sampleTcpResult ∨
        (⟨ProtocolSocketInfo.tcp (listenerRecord Family.ipv4 8080), [1234]⟩ : SocketInfo)
          ∈ sampleUdpResult :=
  c8_protocol_filter_union sampleState AddressFamilyFlags.all
    sampleTcpResult sampleUdpResult sampleResult rfl rfl rfl
    ⟨ProtocolSocketInfo.tcp (listenerRecord Family.ipv4 8080), [1234]⟩

/-- C9: every `SocketInfo` in a query result has an owner list with no
duplicate pid, ordered by first discovery: the list is a sublist of the pid
column of the process table in scan order, and (for the record's ownership
key) it contains exactly the pids of the readable processes owning that
key. -/
theorem c9_associated_pids_nodup_first_discovery
    (s : SystemState) (af : AddressFamilyFlags) (pf : ProtocolFlags)
    (l : List SocketInfo) (si : SocketInfo)
    (h : get_sockets_info s af pf = Except.ok l) (hsi : si ∈ l) :
    si.associated_pids.Nodup ∧
      si.associated_pids.Sublist (s.processes.map (fun pr => pr.pid)) ∧
      ∃ key, ∀ pid, pid ∈ si.associated_pids ↔
        ∃ pr, pr ∈ s.processes ∧ pr.readable = true ∧ key ∈ pr.socket_keys ∧
          pr.pid = pid := by
  obtain ⟨recs, _, hl⟩ := get_sockets_info_ok_inv s af pf l h
  subst hl
  obtain ⟨r, _, rfl⟩ := List.mem_map.mp hsi
  exact ⟨nodup_correlate_owners s.processes r.key,
    correlate_owners_sublist s.processes r.key,
    r.key, fun pid => mem_correlate_owners s.processes r.key pid⟩

/-- Witness for C9 at the concrete snapshot, for the listener record's
socket info. -/
theorem c9_witness :
    (([1234] : List Nat)).Nodup ∧
      ([1234] : List Nat).Sublist (sampleState.processes.map (fun pr => pr.pid)) ∧
      ∃ key, ∀ pid, pid ∈ ([1234] : List Nat) ↔
        ∃ pr, pr ∈ sampleState.processes ∧ pr.readable = true ∧ key ∈ pr.socket_keys ∧
          pr.pid = pid :=
  c9_associated_pids_nodup_first_discovery sampleState
    AddressFamilyFlags.all ProtocolFlags.all sampleResult
    ⟨ProtocolSocketInfo.tcp (listenerRecord Family.ipv4 8080), [1234]⟩
    rfl (by decide)

set_option maxRecDepth 4000 in
/-- C10: the `AddressFamilyFlags` filter type is isomorphic to the subsets
of {IPv4, IPv6}: `from_bits (f.bits) = some f` for every value, the valid
u8 bit patterns are exactly 0 through 3 (any u8 with a bit outside
IPV4 ||| IPV6 is rejected), and IPV4 ∪ IPV6 = all. -/
theorem c10_address_family_flags_iso :
    (∀ f : AddressFamilyFlags, AddressFamilyFlags.from_bits f.bits = some f) ∧
    (∀ n : Nat, n < 256 → ((AddressFamilyFlags.from_bits n).isSome = true ↔ n < 4)) ∧
    AddressFamilyFlags.union AddressFamilyFlags.IPV4 AddressFamilyFlags.IPV6 =
      AddressFamilyFlags.all := by
  refine ⟨?_, ?_, rfl⟩
  · rintro ⟨a, b⟩
    cases a <;> cases b <;> rfl
  · decide

/-- Witness for C10: `from_bits` round-trips the IPV6 constant, and the raw
pattern 200 (bit 3, 6 and 7 set) is invalid. -/
theorem c10_witness :
    AddressFamilyFlags.from_bits AddressFamilyFlags.IPV6.bits =
      some AddressFamilyFlags.IPV6 ∧
    ((AddressFamilyFlags.from_bits 200).isSome = true ↔ 200 < 4) :=
  ⟨c10_address_family_flags_iso.1 AddressFamilyFlags.IPV6,
   c10_address_family_flags_iso.2.1 200 (by decide)⟩

end Netstat
